import Mathlib

/-!
Shallow embedding of `src/pf_calculator.py` (pritamkonar/old-pf): the
provident-fund ledger engine `calculate_ledger`, the month-label helper
`get_fy_months`, and the rounding used for interest.  Monetary amounts are
modelled as exact rationals (`ℚ`); Python's built-in `round(x, 2)` is
modelled as round-half-to-even at two decimal places, which is its
documented behaviour on exact values.
-/

/-- Round a rational to the nearest integer, ties to even: the exact-value
semantics of Python 3's built-in `round` with `ndigits = None`. -/
def roundHalfEven (q : ℚ) : ℤ :=
  if q - ⌊q⌋ < 1/2 then ⌊q⌋
  else if (1:ℚ)/2 < q - ⌊q⌋ then ⌊q⌋ + 1
  else if ⌊q⌋ % 2 = 0 then ⌊q⌋ else ⌊q⌋ + 1

/-- Python's `round(q, 2)` on exact values: round-half-to-even at two
decimal places.  This is the rounding on line 128 of `pf_calculator.py`:
`interest = round(raw_interest, 2)`. -/
def pyRound2 (q : ℚ) : ℚ := (roundHalfEven (q * 100) : ℚ) / 100

/-- Round-half-away-from-zero to the nearest integer (what the spec calls
"standard rounding"); stated here only to compare against the code's
`round`. -/
def roundHalfAway (q : ℚ) : ℤ :=
  if 0 ≤ q then ⌊q + 1/2⌋ else -⌊-q + 1/2⌋

/-- Round-half-away-from-zero at two decimal places, following the spec's
words for the ROUND policy ("round-half-away-from-zero to 2 decimals");
compared against the code's `pyRound2`. -/
def roundHalfAway2 (q : ℚ) : ℚ := (roundHalfAway (q * 100) : ℚ) / 100

/-- Truncation to two decimal places, `floor(q * 100) / 100`. -/
def truncate2 (q : ℚ) : ℚ := (⌊q * 100⌋ : ℚ) / 100

/-- Modelled from the spec: the rounding-policy abstraction of §4.1/§6
(`roundingPolicy: enum{ROUND, TRUNCATE}`).  `src/pf_calculator.py` contains
only the ROUND behaviour (Python `round(raw_interest, 2)`, line 128); the
TRUNCATE policy and the per-run policy parameter are not in the file and
are modelled from the spec's words. -/
inductive RoundingPolicy where
  | ROUND
  | TRUNCATE
deriving Repr, DecidableEq

/-- Modelled from the spec: `interest = roundingPolicy.apply(rawInterest)`;
ROUND is the code's `round(·, 2)` and TRUNCATE is the spec's
`floor(rawInterest * 100) / 100`. -/
def RoundingPolicy.apply : RoundingPolicy → ℚ → ℚ
  | .ROUND, q => pyRound2 q
  | .TRUNCATE, q => truncate2 q

/-- One input row of the data grid handed to `calculate_ledger`: the
columns `Month`, `Dep_Before_15`, `PFLR_Before_15`, `PFLR_After_15`,
`Dep_After_15`, `Withdrawal`, `Rate` of `input_df`. -/
structure MonthRow where
  month : String
  dep_before : ℚ
  pflr_before : ℚ
  pflr_after : ℚ
  dep_after : ℚ
  withdrawal : ℚ
  rate : ℚ
deriving Repr, DecidableEq

/-- One output row appended to `results` inside `calculate_ledger`. -/
structure MonthResult where
  month : String
  openingBalance : ℚ
  dep_before : ℚ
  pflr_before : ℚ
  pflr_after : ℚ
  dep_after : ℚ
  withdrawal : ℚ
  lowestBalance : ℚ
  rate : ℚ
  interest : ℚ
  closingBalance : ℚ
deriving Repr, DecidableEq

/-- The body of the loop of `calculate_ledger` (lines 109-146) for one
month: from the carried `current_bal` and the input row, produce the
emitted result row. -/
def monthStep (current_bal : ℚ) (row : MonthRow) : MonthResult :=
  let effective_deposit_for_interest := row.dep_before + row.pflr_before
  let lowest_bal_calc := current_bal + effective_deposit_for_interest - row.withdrawal
  let lowest_bal := max 0 lowest_bal_calc
  let raw_interest := (lowest_bal * row.rate) / 1200
  let interest := pyRound2 raw_interest
  let closing_bal := current_bal + row.dep_before + row.dep_after +
    row.pflr_before + row.pflr_after - row.withdrawal
  { month := row.month
    openingBalance := current_bal
    dep_before := row.dep_before
    pflr_before := row.pflr_before
    pflr_after := row.pflr_after
    dep_after := row.dep_after
    withdrawal := row.withdrawal
    lowestBalance := lowest_bal
    rate := row.rate
    interest := interest
    closingBalance := closing_bal }

/-- The loop of `calculate_ledger`, carrying `current_bal` and
`total_interest` across the rows; returns `(results, total_interest,
current_bal)` exactly as the Python function does. -/
def ledgerAux : ℚ → ℚ → List MonthRow → List MonthResult × ℚ × ℚ
  | current_bal, total_interest, [] => ([], total_interest, current_bal)
  | current_bal, total_interest, row :: rest =>
      let res := monthStep current_bal row
      let tail := ledgerAux res.closingBalance (total_interest + res.interest) rest
      (res :: tail.1, tail.2.1, tail.2.2)

/-- `calculate_ledger(opening_bal, input_df)` (lines 104-151): returns the
result rows, the total interest, and the final carried balance. -/
def calculate_ledger (opening_bal : ℚ) (input_rows : List MonthRow) :
    List MonthResult × ℚ × ℚ :=
  ledgerAux opening_bal 0 input_rows

/-- `final_balance_with_interest = final_principal + total_yearly_interest`
(line 172): the grand total displayed and printed on the report. -/
def final_balance_with_interest (opening_bal : ℚ) (input_rows : List MonthRow) : ℚ :=
  (calculate_ledger opening_bal input_rows).2.2 +
    (calculate_ledger opening_bal input_rows).2.1

/-- Python's `str(y)[-2:]` for a natural number `y`: the last two characters
of its decimal representation (the whole string when it is shorter). -/
def lastTwo (y : ℕ) : String := (toString y).takeRight 2

/-- The month-name list of `get_fy_months` (line 26). -/
def m_names : List String :=
  ["April", "May", "June", "July", "August", "September", "October",
   "November", "December", "January", "February", "March"]

/-- `get_fy_months(start_year)` (lines 25-31): the 12 financial-year month
labels, `"<name> '<str(y)[-2:]>"`, with `start_year` for the first nine
months and `start_year + 1` afterwards. -/
def get_fy_months (start_year : ℕ) : List String :=
  m_names.enum.map (fun p =>
    p.2 ++ " '" ++ lastTwo (if p.1 < 9 then start_year else start_year + 1))

/-- A default result row, used only as the `getD` fallback in statements. -/
def dRes : MonthResult :=
  { month := "", openingBalance := 0, dep_before := 0, pflr_before := 0,
    pflr_after := 0, dep_after := 0, withdrawal := 0, lowestBalance := 0,
    rate := 0, interest := 0, closingBalance := 0 }

/-- An all-zero input row (Scenario A of the spec). -/
def zeroRow : MonthRow :=
  { month := "April", dep_before := 0, pflr_before := 0, pflr_after := 0,
    dep_after := 0, withdrawal := 0, rate := 0 }

/-- Scenario C of the spec: a 500 withdrawal and nothing else, rate 12. -/
def wRow : MonthRow :=
  { month := "April", dep_before := 0, pflr_before := 0, pflr_after := 0,
    dep_after := 0, withdrawal := 500, rate := 12 }

/-- A row with rate 12 and no movements, used to probe the rounding. -/
def rateRow : MonthRow :=
  { month := "April", dep_before := 0, pflr_before := 0, pflr_after := 0,
    dep_after := 0, withdrawal := 0, rate := 12 }

lemma ledgerAux_nil (c t : ℚ) : ledgerAux c t [] = ([], t, c) := rfl

lemma ledgerAux_cons (c t : ℚ) (r : MonthRow) (rs : List MonthRow) :
    ledgerAux c t (r :: rs) =
      (monthStep c r ::
        (ledgerAux (monthStep c r).closingBalance (t + (monthStep c r).interest) rs).1,
       (ledgerAux (monthStep c r).closingBalance (t + (monthStep c r).interest) rs).2) :=
  rfl

lemma ledgerAux_mem (rows : List MonthRow) :
    ∀ (c t : ℚ) (res : MonthResult), res ∈ (ledgerAux c t rows).1 →
      ∃ c' r, r ∈ rows ∧ res = monthStep c' r := by
  induction rows with
  | nil =>
    intro c t res h
    simp [ledgerAux_nil] at h
  | cons r rs ih =>
    intro c t res h
    rw [ledgerAux_cons] at h
    rcases List.mem_cons.mp h with h | h
    · exact ⟨c, r, List.mem_cons_self r rs, h⟩
    · obtain ⟨c', r', hr, he⟩ := ih _ _ _ h
      exact ⟨c', r', List.mem_cons_of_mem r hr, he⟩

lemma ledgerAux_getD_zero (rows : List MonthRow) (c t : ℚ) (d : MonthResult)
    (h : rows ≠ []) :
    (((ledgerAux c t rows).1).getD 0 d).openingBalance = c := by
  cases rows with
  | nil => exact absurd rfl h
  | cons r rs => rw [ledgerAux_cons]; rfl

lemma ledgerAux_chain (rows : List MonthRow) :
    ∀ (c t : ℚ) (d : MonthResult) (i : ℕ), i + 1 < rows.length →
      (((ledgerAux c t rows).1).getD (i + 1) d).openingBalance =
      (((ledgerAux c t rows).1).getD i d).closingBalance := by
  induction rows with
  | nil =>
    intro c t d i h
    simp at h
  | cons r rs ih =>
    intro c t d i h
    rw [ledgerAux_cons]
    match i with
    | 0 =>
      have hrs : rs ≠ [] := by
        intro he
        rw [he] at h
        simp at h
      simp only [List.getD_cons_succ, List.getD_cons_zero]
      exact ledgerAux_getD_zero rs _ _ d hrs
    | j + 1 =>
      simp only [List.getD_cons_succ]
      exact ih _ _ d j (by simpa using h)

lemma ledgerAux_total (rows : List MonthRow) :
    ∀ (c t : ℚ), (ledgerAux c t rows).2.1 =
      t + (((ledgerAux c t rows).1).map MonthResult.interest).sum := by
  induction rows with
  | nil =>
    intro c t
    simp [ledgerAux_nil]
  | cons r rs ih =>
    intro c t
    rw [ledgerAux_cons]
    simp only [List.map_cons, List.sum_cons]
    rw [ih]
    ring

lemma ledgerAux_final (rows : List MonthRow) :
    ∀ (c t : ℚ) (d : MonthResult), rows ≠ [] →
      (ledgerAux c t rows).2.2 =
      (((ledgerAux c t rows).1).getD (rows.length - 1) d).closingBalance := by
  induction rows with
  | nil =>
    intro c t d h
    exact absurd rfl h
  | cons r rs ih =>
    intro c t d _
    rw [ledgerAux_cons]
    cases rs with
    | nil =>
      simp [ledgerAux_nil, monthStep]
    | cons r' rs' =>
      have hlen : (r :: r' :: rs').length - 1 = (r' :: rs').length := rfl
      rw [hlen]
      simp only [List.length_cons, List.getD_cons_succ]
      exact ih _ _ d (by simp)

lemma roundHalfEven_intCast (z : ℤ) : roundHalfEven (z : ℚ) = z := by
  unfold roundHalfEven
  rw [Int.floor_intCast, sub_self]
  norm_num

/-- C1: every emitted row's lowest balance equals
`max 0 (openingBalance + depositBefore15 + pflrBefore15 - withdrawal)`,
the opening balance being that month's carried balance, and is therefore
nonnegative whatever the inputs are. -/
theorem lowest_balance_floor (ob : ℚ) (rows : List MonthRow) (res : MonthResult)
    (h : res ∈ (calculate_ledger ob rows).1) :
    res.lowestBalance =
      max 0 (res.openingBalance + res.dep_before + res.pflr_before - res.withdrawal) ∧
    0 ≤ res.lowestBalance := by
  obtain ⟨c, r, _, rfl⟩ := ledgerAux_mem rows ob 0 res h
  constructor
  · simp only [monthStep]
    congr 1
    ring
  · simp only [monthStep]
    exact le_max_left _ _

theorem lowest_balance_floor_witness :
    ((monthStep 100 wRow).lowestBalance =
      max 0 ((monthStep 100 wRow).openingBalance + (monthStep 100 wRow).dep_before +
        (monthStep 100 wRow).pflr_before - (monthStep 100 wRow).withdrawal) ∧
    0 ≤ (monthStep 100 wRow).lowestBalance) :=
  lowest_balance_floor 100 [wRow] (monthStep 100 wRow) (List.mem_cons_self _ _)

/-- C2 counterexample: with opening balance 12.5 and a single month whose
rate is 12 and whose movements are all zero, the raw interest is exactly
0.125; round-half-away-from-zero at two decimals gives 0.13, but the
emitted interest is 0.12 — Python's `round` rounds the tie to the even
cent, not away from zero. -/
theorem interest_ties_to_even_cex :
    ((calculate_ledger (25/2) [rateRow]).1.getD 0 dRes).lowestBalance *
        ((calculate_ledger (25/2) [rateRow]).1.getD 0 dRes).rate / 1200 = 1/8 ∧
    roundHalfAway2 (1/8) = 13/100 ∧
    ((calculate_ledger (25/2) [rateRow]).1.getD 0 dRes).interest = 12/100 ∧
    (12/100 : ℚ) ≠ 13/100 := by
  have hmax : max (0:ℚ) (25/2 + (0 + 0) - 0) = 25/2 := by
    rw [max_eq_right (by norm_num : (0:ℚ) ≤ 25/2 + (0 + 0) - 0)]
    norm_num
  refine ⟨?_, ?_, ?_, by norm_num⟩
  · show (monthStep (25/2) rateRow).lowestBalance *
        (monthStep (25/2) rateRow).rate / 1200 = 1/8
    simp only [monthStep, rateRow, hmax]
    norm_num
  · norm_num [roundHalfAway2, roundHalfAway]
  · show (monthStep (25/2) rateRow).interest = 12/100
    simp only [monthStep, rateRow, hmax]
    norm_num [pyRound2, roundHalfEven]

/-- C2 (amended): every emitted row's interest equals Python
`round(lowestBalance * rate / 1200, 2)`, i.e. round-half-to-even at two
decimal places of the raw interest. -/
theorem interest_eq_pyRound2 (ob : ℚ) (rows : List MonthRow) (res : MonthResult)
    (h : res ∈ (calculate_ledger ob rows).1) :
    res.interest = pyRound2 (res.lowestBalance * res.rate / 1200) := by
  obtain ⟨c, r, _, rfl⟩ := ledgerAux_mem rows ob 0 res h
  simp only [monthStep]

theorem interest_eq_pyRound2_witness :
    (monthStep (25/2) rateRow).interest =
      pyRound2 ((monthStep (25/2) rateRow).lowestBalance *
        (monthStep (25/2) rateRow).rate / 1200) :=
  interest_eq_pyRound2 (25/2) [rateRow] (monthStep (25/2) rateRow)
    (List.mem_cons_self _ _)

/-- C3: every emitted row's closing balance is the plain sum
`openingBalance + depositBefore15 + depositAfter15 + pflrBefore15 +
pflrAfter15 - withdrawal` — interest is not added and nothing is floored —
and each row's closing balance is carried as-is into the next row's
opening balance. -/
theorem closing_balance_spec (ob : ℚ) (rows : List MonthRow) (d : MonthResult) :
    (∀ res ∈ (calculate_ledger ob rows).1,
      res.closingBalance = res.openingBalance + res.dep_before + res.dep_after +
        res.pflr_before + res.pflr_after - res.withdrawal) ∧
    (∀ i : ℕ, i + 1 < rows.length →
      (((calculate_ledger ob rows).1).getD (i + 1) d).openingBalance =
      (((calculate_ledger ob rows).1).getD i d).closingBalance) := by
  constructor
  · intro res h
    obtain ⟨c, r, _, rfl⟩ := ledgerAux_mem rows ob 0 res h
    simp only [monthStep]
  · intro i h
    exact ledgerAux_chain rows ob 0 d i h

theorem closing_balance_spec_witness :
    ((monthStep 100 wRow).closingBalance =
      (monthStep 100 wRow).openingBalance + (monthStep 100 wRow).dep_before +
        (monthStep 100 wRow).dep_after + (monthStep 100 wRow).pflr_before +
        (monthStep 100 wRow).pflr_after - (monthStep 100 wRow).withdrawal) ∧
    (((calculate_ledger 100 [wRow, zeroRow]).1).getD 1 dRes).openingBalance =
      (((calculate_ledger 100 [wRow, zeroRow]).1).getD 0 dRes).closingBalance :=
  ⟨(closing_balance_spec 100 [wRow, zeroRow] dRes).1 (monthStep 100 wRow)
      (List.mem_cons_self _ _),
   (closing_balance_spec 100 [wRow, zeroRow] dRes).2 0 (by decide)⟩

/-- C4: the first emitted row's opening balance is the caller-supplied
opening balance, and every later row's opening balance equals the previous
row's closing balance. -/
theorem opening_chain (ob : ℚ) (rows : List MonthRow) (d : MonthResult) :
    (0 < rows.length →
      (((calculate_ledger ob rows).1).getD 0 d).openingBalance = ob) ∧
    (∀ i : ℕ, i + 1 < rows.length →
      (((calculate_ledger ob rows).1).getD (i + 1) d).openingBalance =
      (((calculate_ledger ob rows).1).getD i d).closingBalance) := by
  constructor
  · intro h
    exact ledgerAux_getD_zero rows ob 0 d (List.length_pos.mp h)
  · intro i h
    exact ledgerAux_chain rows ob 0 d i h

theorem opening_chain_witness :
    (((calculate_ledger 5 [zeroRow, wRow]).1).getD 0 dRes).openingBalance = 5 ∧
    (((calculate_ledger 5 [zeroRow, wRow]).1).getD 1 dRes).openingBalance =
      (((calculate_ledger 5 [zeroRow, wRow]).1).getD 0 dRes).closingBalance :=
  ⟨(opening_chain 5 [zeroRow, wRow] dRes).1 (by decide),
   (opening_chain 5 [zeroRow, wRow] dRes).2 0 (by decide)⟩

/-- C5 counterexample: `calculate_ledger` takes no rounding-policy
argument, and at a concrete input where rounding and truncation differ it
emits the rounded value, never the truncated one.  With opening balance
220254.9, rate 12 and no movements, the raw interest is exactly 2202.549:
truncation gives 2202.54, but the engine emits 2202.55 — the TRUNCATE
behaviour is not selectable on any run. -/
theorem truncate_not_supported_cex :
    ((calculate_ledger (2202549/10) [rateRow]).1.getD 0 dRes).lowestBalance *
        ((calculate_ledger (2202549/10) [rateRow]).1.getD 0 dRes).rate / 1200 =
      2202549/1000 ∧
    RoundingPolicy.TRUNCATE.apply (2202549/1000) = 220254/100 ∧
    ((calculate_ledger (2202549/10) [rateRow]).1.getD 0 dRes).interest =
      220255/100 ∧
    (220255/100 : ℚ) ≠ 220254/100 := by
  have hmax : max (0:ℚ) (2202549/10 + (0 + 0) - 0) = 2202549/10 := by
    rw [max_eq_right (by norm_num : (0:ℚ) ≤ 2202549/10 + (0 + 0) - 0)]
    norm_num
  refine ⟨?_, ?_, ?_, by norm_num⟩
  · show (monthStep (2202549/10) rateRow).lowestBalance *
        (monthStep (2202549/10) rateRow).rate / 1200 = 2202549/1000
    simp only [monthStep, rateRow, hmax]
    norm_num
  · show truncate2 (2202549/1000) = 220254/100
    norm_num [truncate2]
  · show (monthStep (2202549/10) rateRow).interest = 220255/100
    simp only [monthStep, rateRow, hmax]
    norm_num [pyRound2, roundHalfEven]

/-- C5 (amended): the engine applies one hard-coded rounding policy,
Python's `round(·, 2)` (the ROUND policy), to every month of every run; no
input selects the TRUNCATE behaviour.  The TRUNCATE value itself,
`floor(rawInterest * 100) / 100`, never exceeds the raw interest of any
emitted row and differs from it by less than one cent — but the engine
emits the rounded value, not it. -/
theorem single_rounding_policy (ob : ℚ) (rows : List MonthRow) (res : MonthResult)
    (h : res ∈ (calculate_ledger ob rows).1) :
    res.interest =
      RoundingPolicy.ROUND.apply (res.lowestBalance * res.rate / 1200) ∧
    truncate2 (res.lowestBalance * res.rate / 1200) =
      (⌊res.lowestBalance * res.rate / 1200 * 100⌋ : ℚ) / 100 ∧
    truncate2 (res.lowestBalance * res.rate / 1200) ≤
      res.lowestBalance * res.rate / 1200 ∧
    res.lowestBalance * res.rate / 1200 -
        truncate2 (res.lowestBalance * res.rate / 1200) < 1/100 := by
  have h1 : (⌊res.lowestBalance * res.rate / 1200 * 100⌋ : ℚ) ≤
      res.lowestBalance * res.rate / 1200 * 100 := Int.floor_le _
  have h2 : res.lowestBalance * res.rate / 1200 * 100 <
      (⌊res.lowestBalance * res.rate / 1200 * 100⌋ : ℚ) + 1 :=
    Int.lt_floor_add_one _
  refine ⟨?_, rfl, ?_, ?_⟩
  · obtain ⟨c, r, _, rfl⟩ := ledgerAux_mem rows ob 0 res h
    simp only [monthStep, RoundingPolicy.apply]
  · unfold truncate2
    linarith
  · unfold truncate2
    linarith

theorem single_rounding_policy_witness :
    ((monthStep (2202549/10) rateRow).interest =
      RoundingPolicy.ROUND.apply ((monthStep (2202549/10) rateRow).lowestBalance *
        (monthStep (2202549/10) rateRow).rate / 1200)) ∧
    truncate2 ((monthStep (2202549/10) rateRow).lowestBalance *
        (monthStep (2202549/10) rateRow).rate / 1200) =
      (⌊(monthStep (2202549/10) rateRow).lowestBalance *
        (monthStep (2202549/10) rateRow).rate / 1200 * 100⌋ : ℚ) / 100 ∧
    truncate2 ((monthStep (2202549/10) rateRow).lowestBalance *
        (monthStep (2202549/10) rateRow).rate / 1200) ≤
      (monthStep (2202549/10) rateRow).lowestBalance *
        (monthStep (2202549/10) rateRow).rate / 1200 ∧
    (monthStep (2202549/10) rateRow).lowestBalance *
        (monthStep (2202549/10) rateRow).rate / 1200 -
        truncate2 ((monthStep (2202549/10) rateRow).lowestBalance *
          (monthStep (2202549/10) rateRow).rate / 1200) < 1/100 :=
  single_rounding_policy (2202549/10) [rateRow] (monthStep (2202549/10) rateRow)
    (List.mem_cons_self _ _)

/-- C6: the total interest returned by `calculate_ledger` is exactly the
sum of the per-month interest values of the emitted rows. -/
theorem total_interest_eq_sum (ob : ℚ) (rows : List MonthRow) :
    (calculate_ledger ob rows).2.1 =
      (((calculate_ledger ob rows).1).map MonthResult.interest).sum := by
  have h := ledgerAux_total rows ob 0
  simpa [calculate_ledger] using h

/-- C7: for a 12-month run the grand total
`final_balance_with_interest = final_principal + total_interest` equals
the closing balance of the twelfth emitted row plus the total interest. -/
theorem grand_total_eq (ob : ℚ) (rows : List MonthRow) (d : MonthResult)
    (h : rows.length = 12) :
    final_balance_with_interest ob rows =
      (((calculate_ledger ob rows).1).getD 11 d).closingBalance +
        (calculate_ledger ob rows).2.1 := by
  have hne : rows ≠ [] := by
    intro he
    rw [he] at h
    simp at h
  have hfin := ledgerAux_final rows ob 0 d hne
  simp only [final_balance_with_interest, calculate_ledger] at *
  rw [hfin, h]

theorem grand_total_eq_witness :
    final_balance_with_interest 0 (List.replicate 12 zeroRow) =
      (((calculate_ledger 0 (List.replicate 12 zeroRow)).1).getD 11 dRes).closingBalance +
        (calculate_ledger 0 (List.replicate 12 zeroRow)).2.1 :=
  grand_total_eq 0 (List.replicate 12 zeroRow) dRes (by decide)

/-- C8: both policies are idempotent on values that already have at most
two decimal places: a rational of the form z/100 is returned unchanged. -/
theorem rounding_idempotent (q : ℚ) (z : ℤ) (h : q = (z : ℚ) / 100) :
    RoundingPolicy.ROUND.apply q = q ∧ RoundingPolicy.TRUNCATE.apply q = q := by
  subst h
  have hz : (z : ℚ) / 100 * 100 = (z : ℚ) := by
    field_simp
  constructor
  · show pyRound2 _ = _
    unfold pyRound2
    rw [hz, roundHalfEven_intCast]
  · show truncate2 _ = _
    unfold truncate2
    rw [hz, Int.floor_intCast]

theorem rounding_idempotent_witness :
    RoundingPolicy.ROUND.apply ((31:ℚ)/100) = 31/100 ∧
    RoundingPolicy.TRUNCATE.apply ((31:ℚ)/100) = 31/100 :=
  rounding_idempotent ((31:ℚ)/100) 31 (by norm_num)

/-- C9: for every start year the label generator returns exactly the 12
labels April through March in order, each of the form
`"<MonthName> '<YY>"` with the last two digits of the year, April through
December carrying the start year and January through March the next. -/
theorem fy_month_labels (start_year : ℕ) :
    get_fy_months start_year =
      ["April '" ++ lastTwo start_year, "May '" ++ lastTwo start_year,
       "June '" ++ lastTwo start_year, "July '" ++ lastTwo start_year,
       "August '" ++ lastTwo start_year, "September '" ++ lastTwo start_year,
       "October '" ++ lastTwo start_year, "November '" ++ lastTwo start_year,
       "December '" ++ lastTwo start_year,
       "January '" ++ lastTwo (start_year + 1),
       "February '" ++ lastTwo (start_year + 1),
       "March '" ++ lastTwo (start_year + 1)] ∧
    (get_fy_months start_year).length = 12 := by
  constructor <;> rfl

/-- C10: the ledger computation is a pure function of its arguments: equal
opening balances and equal input rows give equal results (rows, total
interest, and final principal). -/
theorem ledger_deterministic (ob ob' : ℚ) (rows rows' : List MonthRow)
    (h1 : ob = ob') (h2 : rows = rows') :
    calculate_ledger ob rows = calculate_ledger ob' rows' := by
  rw [h1, h2]

theorem ledger_deterministic_witness :
    calculate_ledger 1 [zeroRow] = calculate_ledger 1 [zeroRow] :=
  ledger_deterministic 1 1 [zeroRow] [zeroRow] rfl rfl

